import Mathlib

/-!
Shallow embedding of the garbage-collection housekeeping handler
(registry/handlers/housekeeping.go) and the storage registry constructor
(registry/storage/registry.go) of the distribution registry, with theorems
settling the specification claims about them.

Digests are modelled as natural numbers; errors as strings; the storage
services a handler talks to (tag lookup, manifest fetch, vacuum removals)
are modelled as explicit function-valued fields of an environment record,
so that one run of the garbage collector is a pure function of that
environment.
-/

namespace Housekeeping

/-- A content digest, abstracted to a natural number. -/
abbrev Digest := Nat

/-- Descriptor identifies content by digest (plus size and media type,
as in the distribution data model). -/
structure Descriptor where
  digest : Digest
  size : Int := 0
  mediaType : String := ""
deriving DecidableEq, Repr

/-- A parsed manifest, exposing exactly what the GC uses: its
References() list of descriptors. -/
structure Manifest where
  references : List Descriptor
deriving DecidableEq, Repr

/-- ManifestDel from housekeeping.go: a pending manifest deletion,
recording repository name, digest, and the repository's full tag list. -/
structure ManifestDel where
  name : String
  digest : Digest
  tags : List String
deriving DecidableEq, Repr

/-- The state of the repository the housekeeping handler is bound to:
its name, whether its manifest service supports enumeration (the Go code
type-asserts ManifestService to ManifestEnumerator), the digests its
manifest enumeration yields, an optional error the enumeration itself
fails with after yielding them, the tag service's Lookup and All results,
and the manifest service's Get results. -/
structure RepoState where
  name : String
  canEnumerate : Bool
  manifests : List Digest
  manifestEnumErr : Option String
  tagLookup : Digest → Except String (List String)
  allTags : Except String (List String)
  getManifest : Digest → Except String Manifest

/-- The mutable state threaded through the mark phase: the pending
deletions slice and the mark set (insertion-ordered list of digests). -/
structure MarkState where
  manifestArr : List ManifestDel
  markSet : List Digest
deriving DecidableEq, Repr

/-- The tagged path of the enumeration callback: mark the manifest's own
digest, fetch the manifest, and mark every referenced descriptor. -/
def markManifestAndRefs (st : RepoState) (acc : MarkState) (dgst : Digest) :
    Except String MarkState :=
  let acc1 : MarkState := { acc with markSet := acc.markSet ++ [dgst] }
  match st.getManifest dgst with
  | .error e =>
      .error ("failed to retrieve manifest for digest " ++ toString dgst ++ ": " ++ e)
  | .ok m =>
      .ok { acc1 with markSet := acc1.markSet ++ m.references.map Descriptor.digest }

/-- The body of the enumeration callback in markAllManifests, for one
digest: with removeUntagged set, look up the tags pointing at the digest;
an untagged digest is recorded as a pending deletion together with the
repository's full tag list, a tagged one is marked together with its
references. -/
def markOne (repoName : String) (st : RepoState) (removeUntagged : Bool)
    (acc : MarkState) (dgst : Digest) : Except String MarkState :=
  if removeUntagged then
    match st.tagLookup dgst with
    | .error e =>
        .error ("failed to retrieve tags for digest " ++ toString dgst ++ ": " ++ e)
    | .ok tags =>
        if tags.length == 0 then
          match st.allTags with
          | .error e => .error ("failed to retrieve tags " ++ e)
          | .ok allTags =>
              .ok { acc with
                    manifestArr := acc.manifestArr ++
                      [{ name := repoName, digest := dgst, tags := allTags }] }
        else
          markManifestAndRefs st acc dgst
  else
    markManifestAndRefs st acc dgst

/-- The enumeration loop: apply the callback to each yielded digest in
order, aborting on the first callback error. -/
def markFold (repoName : String) (st : RepoState) (acc : MarkState) :
    List Digest → Except String MarkState
  | [] => .ok acc
  | d :: rest =>
      match markOne repoName st true acc d with
      | .error e => .error e
      | .ok acc' => markFold repoName st acc' rest

/-- markAllManifests from housekeeping.go: require the manifest service
to be an enumerator, then enumerate every manifest digest of the bound
repository with removeUntagged hardwired to true; an error of the
enumeration itself is returned after the yielded digests are processed. -/
def markAllManifests (st : RepoState) : Except String MarkState :=
  if st.canEnumerate then
    match markFold st.name st { manifestArr := [], markSet := [] } st.manifests with
    | .error e => .error e
    | .ok acc =>
        match st.manifestEnumErr with
        | some e => .error e
        | none => .ok acc
  else
    .error "unable to convert ManifestService into ManifestEnumerator"

/-- RepositoryBlobsEnumerator result: whether the blob store is
repository-scoped, the digests its enumeration yields, and an optional
error the enumeration itself fails with after yielding them. -/
structure BlobsService where
  isScopped : Bool
  blobs : List Digest
  enumErr : Option String

/-- The environment of one runGCCycle invocation: the bound repository,
whether constructing the manifest service fails, the repository blobs
enumerator (nil allowed), and the vacuum's removal operations. -/
structure GCEnv where
  repo : RepoState
  manifestServiceErr : Option String
  blobsService : Option BlobsService
  removeManifest : String → Digest → List String → Except String Unit
  removeRepositoryBlob : Digest → Except String Unit

/-- True when an Except value is a success. -/
def exOk {α : Type} (e : Except String α) : Bool :=
  match e with
  | .ok _ => true
  | .error _ => false

/-- The manifest-deletion loop of the sweep: remove each pending manifest
in order, stopping at the first failure; returns the deletions performed
and the loop's result. -/
def sweepManifests (env : GCEnv) : List ManifestDel → List ManifestDel × Except String Unit
  | [] => ([], .ok ())
  | obj :: rest =>
      match env.removeManifest obj.name obj.digest obj.tags with
      | .error e =>
          ([], .error ("failed to delete manifest " ++ toString obj.digest ++ ": " ++ e))
      | .ok _ =>
          let (ds, r) := sweepManifests env rest
          (obj :: ds, r)

/-- The observable outcome of one GC cycle: the manifest deletions and
blob deletions actually performed, and the returned error or success. -/
structure GCOutcome where
  deletedManifests : List ManifestDel
  deletedBlobs : List Digest
  result : Except String Unit
deriving Repr

/-- The blob section of runGCCycle, reached after all pending manifests
were removed: only when the repository blobs enumerator exists and is
scoped, the enumerated blobs absent from the mark set are removed, an
individual blob-removal error being ignored; an error of the enumeration
itself is returned. -/
def gcBlobSweep (env : GCEnv) (st : MarkState) (dels : List ManifestDel) : GCOutcome :=
  match env.blobsService with
  | none => { deletedManifests := dels, deletedBlobs := [], result := .ok () }
  | some bs =>
    if bs.isScopped then
      let deleted := bs.blobs.filter
        (fun d => !(st.markSet.contains d) && exOk (env.removeRepositoryBlob d))
      match bs.enumErr with
      | some e =>
          { deletedManifests := dels, deletedBlobs := deleted,
            result := .error ("failed to delete blobs " ++ e) }
      | none =>
          { deletedManifests := dels, deletedBlobs := deleted, result := .ok () }
    else
      { deletedManifests := dels, deletedBlobs := [], result := .ok () }

/-- The sweep portion of runGCCycle, run on a completed mark state: first
the pending manifest removals, stopping at the first failure, then the
blob section. -/
def gcAfterMark (env : GCEnv) (st : MarkState) : GCOutcome :=
  match sweepManifests env st.manifestArr with
  | (dels, .error e) => { deletedManifests := dels, deletedBlobs := [], result := .error e }
  | (dels, .ok _) => gcBlobSweep env st dels

/-- runGCCycle from housekeeping.go: construct the manifest service, run
the mark phase, and only if it succeeded run the sweep on its output. -/
def runGCCycle (env : GCEnv) : GCOutcome :=
  match env.manifestServiceErr with
  | some e =>
      { deletedManifests := [], deletedBlobs := [],
        result := .error ("failed to construct manifest service: " ++ e) }
  | none =>
    match markAllManifests env.repo with
    | .error e =>
        { deletedManifests := [], deletedBlobs := [],
          result := .error ("failed to mark all manifests: " ++ e) }
    | .ok st => gcAfterMark env st

/-- An HTTP response as the handler writes it: status code, explicitly
set headers, and body. -/
structure HTTPResponse where
  status : Nat
  headers : List (String × String)
  body : String
deriving DecidableEq, Repr

/-- The registered HTTP methods of the housekeeping dispatcher: DELETE is
registered only when the registry is not read-only. -/
def housekeepingDispatcher (readOnly : Bool) : List String :=
  if !readOnly then ["DELETE"] else []

/-- Recycle from housekeeping.go: run one GC cycle synchronously; on
failure answer 500 with the error text as body, on success answer 200
with Content-Length 0 and an empty body. -/
def Recycle (env : GCEnv) : HTTPResponse :=
  match (runGCCycle env).result with
  | .error e => { status := 500, headers := [], body := e }
  | .ok _ => { status := 200, headers := [("Content-Length", "0")], body := "" }

end Housekeeping



namespace Storage

/-- A storage driver, abstracted to an identifier. -/
abbrev Driver := Nat

/-- registryOptions from registry.go. -/
structure RegistryOptions where
  repositoryBlobStoreEnabled : Bool
  globalBlobStoreEnabled : Bool
  redirect : Bool
deriving DecidableEq, Repr

/-- The global blob statter. -/
structure BlobStatter where
  driver : Driver
  options : RegistryOptions
  repositoryScope : String := ""
deriving DecidableEq, Repr

/-- The blob store: driver, statter, options, and the repository scope
(empty for the global store). -/
structure BlobStore where
  driver : Driver
  statter : BlobStatter
  options : RegistryOptions
  repositoryScope : String := ""
deriving DecidableEq, Repr

/-- The blob server; pathScope records which blob store's path function
it serves from (that store's repository scope). -/
structure BlobServer where
  driver : Driver
  options : RegistryOptions
  statter : BlobStatter
  pathScope : String := ""
deriving DecidableEq, Repr

/-- The registry as built by NewRegistry, restricted to the fields the
claims are about. In Go the options record is shared by pointer between
the registry and its global stores; here option setters update the
registry's copy, which is the one every scoped-store decision reads. -/
structure Registry where
  options : RegistryOptions
  globalBlobStore : BlobStore
  globalBlobServer : BlobServer
  globalStatter : BlobStatter
  deleteEnabled : Bool
  schema1Enabled : Bool
  resumableDigestEnabled : Bool
  driver : Driver
deriving DecidableEq, Repr

/-- RegistryOption: a functional option, applied in order, each allowed
to fail. -/
abbrev RegistryOption := Registry → Except String Registry

/-- EnableRedirect functional option. -/
def EnableRedirect : RegistryOption := fun reg =>
  .ok { reg with options := { reg.options with redirect := true } }

/-- EnableDelete functional option. -/
def EnableDelete : RegistryOption := fun reg =>
  .ok { reg with deleteEnabled := true }

/-- EnableRepositoryBlobsStorage functional option. -/
def EnableRepositoryBlobsStorage : RegistryOption := fun reg =>
  .ok { reg with options := { reg.options with repositoryBlobStoreEnabled := true } }

/-- DisableGlobalBlobsStorage functional option. -/
def DisableGlobalBlobsStorage : RegistryOption := fun reg =>
  .ok { reg with options := { reg.options with globalBlobStoreEnabled := false } }

/-- EnableSchema1 functional option. -/
def EnableSchema1 : RegistryOption := fun reg =>
  .ok { reg with schema1Enabled := true }

/-- DisableDigestResumption functional option. -/
def DisableDigestResumption : RegistryOption := fun reg =>
  .ok { reg with resumableDigestEnabled := false }

/-- The registry value NewRegistry builds before applying any option:
global blob storage enabled, everything else at its zero value except
resumable digests, which start enabled. -/
def initialRegistry (driver : Driver) : Registry :=
  let registryOptions : RegistryOptions :=
    { repositoryBlobStoreEnabled := false
      globalBlobStoreEnabled := true
      redirect := false }
  let statter : BlobStatter := { driver := driver, options := registryOptions }
  let bs : BlobStore := { driver := driver, statter := statter, options := registryOptions }
  { options := registryOptions
    globalBlobStore := bs
    globalBlobServer :=
      { driver := driver, options := registryOptions, statter := statter,
        pathScope := bs.repositoryScope }
    globalStatter := statter
    deleteEnabled := false
    schema1Enabled := false
    resumableDigestEnabled := true
    driver := driver }

/-- Apply the supplied options in order, returning the first error. -/
def applyOptions (reg : Registry) : List RegistryOption → Except String Registry
  | [] => .ok reg
  | o :: rest =>
      match o reg with
      | .error e => .error e
      | .ok reg' => applyOptions reg' rest

/-- NewRegistry from registry.go. -/
def NewRegistry (driver : Driver) (options : List RegistryOption) :
    Except String Registry :=
  applyOptions (initialRegistry driver) options

/-- A repository view of a registry. -/
structure Repository where
  registry : Registry
  name : String
deriving DecidableEq, Repr

/-- scopedBlobStatter from registry.go: a fresh statter scoped to this
repository when repository-scoped blob storage is enabled, else the
shared global statter. -/
def scopedBlobStatter (repo : Repository) : BlobStatter :=
  if repo.registry.options.repositoryBlobStoreEnabled then
    { driver := repo.registry.driver
      options := repo.registry.options
      repositoryScope := repo.name }
  else
    repo.registry.globalStatter

/-- scopedBlobStore from registry.go. -/
def scopedBlobStore (repo : Repository) : BlobStore :=
  if repo.registry.options.repositoryBlobStoreEnabled then
    { driver := repo.registry.driver
      options := repo.registry.options
      statter := scopedBlobStatter repo
      repositoryScope := repo.name }
  else
    repo.registry.globalBlobStore

/-- scopedBlobServer from registry.go. -/
def scopedBlobServer (repo : Repository) : BlobServer :=
  if repo.registry.options.repositoryBlobStoreEnabled then
    let bs := scopedBlobStore repo
    { driver := repo.registry.driver
      options := repo.registry.options
      statter := bs.statter
      pathScope := bs.repositoryScope }
  else
    repo.registry.globalBlobServer

/-- The tag store returned by Tags: it operates on the repository's
scoped blob store. -/
structure TagStore where
  repositoryName : String
  blobStore : BlobStore
deriving DecidableEq, Repr

/-- Tags from registry.go. -/
def Tags (repo : Repository) : TagStore :=
  { repositoryName := repo.name, blobStore := scopedBlobStore repo }

/-- The linked blob store built inside Manifests: the part the scoping
claim is about is the underlying blob store it links over. -/
structure LinkedManifestStore where
  blobStore : BlobStore
  deleteEnabled : Bool
deriving DecidableEq, Repr

/-- The manifest store returned by Manifests, restricted to its
underlying linked blob store. -/
structure ManifestStore where
  linkedStore : LinkedManifestStore
deriving DecidableEq, Repr

/-- Manifests from registry.go: builds its linked blob store over the
repository's scoped blob store. -/
def Manifests (repo : Repository) : ManifestStore :=
  { linkedStore :=
      { blobStore := scopedBlobStore repo
        deleteEnabled := repo.registry.deleteEnabled } }

/-- The linked blob store returned by Blobs: the underlying scoped blob
store, the scoped blob server, and the flags copied from the registry. -/
structure LinkedBlobStore where
  blobStore : BlobStore
  blobServer : BlobServer
  deleteEnabled : Bool
  resumableDigestEnabled : Bool
deriving DecidableEq, Repr

/-- Blobs from registry.go. -/
def Blobs (repo : Repository) : LinkedBlobStore :=
  { blobStore := scopedBlobStore repo
    blobServer := scopedBlobServer repo
    deleteEnabled := repo.registry.deleteEnabled
    resumableDigestEnabled := repo.registry.resumableDigestEnabled }

end Storage

namespace Housekeeping

/-- A repository with a single tagged manifest 1 referencing blob 4. -/
def repoA : RepoState :=
  { name := "repo-a"
    canEnumerate := true
    manifests := [1]
    manifestEnumErr := none
    tagLookup := fun d => if d = 1 then .ok ["latest"] else .ok []
    allTags := .ok ["latest"]
    getManifest := fun d =>
      if d = 1 then .ok { references := [{ digest := 4 }] }
      else .error "unknown manifest" }

/-- A second repository in the same namespace, holding one untagged
manifest 7. -/
def repoB : RepoState :=
  { name := "repo-b"
    canEnumerate := true
    manifests := [7]
    manifestEnumErr := none
    tagLookup := fun _ => .ok []
    allTags := .ok []
    getManifest := fun d =>
      if d = 7 then .ok { references := [] } else .error "unknown manifest" }

/-- A repository whose tagged manifest 1 is a manifest list referencing
the untagged manifest 2, which in turn references blob 3. -/
def repoNest : RepoState :=
  { name := "repo-n"
    canEnumerate := true
    manifests := [1, 2]
    manifestEnumErr := none
    tagLookup := fun d => if d = 1 then .ok ["latest"] else .ok []
    allTags := .ok ["latest"]
    getManifest := fun d =>
      if d = 1 then .ok { references := [{ digest := 2 }] }
      else if d = 2 then .ok { references := [{ digest := 3 }] }
      else .error "unknown manifest" }

/-- A repository whose tag lookup fails with a driver error. -/
def repoErr : RepoState :=
  { name := "repo-e"
    canEnumerate := true
    manifests := [5]
    manifestEnumErr := none
    tagLookup := fun _ => .error "boom"
    allTags := .ok []
    getManifest := fun _ => .error "unknown manifest" }

/-- A repository with two untagged manifests 1 and 2 and tag history
["old"]. -/
def repoU : RepoState :=
  { name := "repo-u"
    canEnumerate := true
    manifests := [1, 2]
    manifestEnumErr := none
    tagLookup := fun _ => .ok []
    allTags := .ok ["old"]
    getManifest := fun _ => .error "unknown manifest" }

/-- GC environment bound to repoA, with a scoped blob store holding
blobs 4 and 9 and all removals succeeding. -/
def envA : GCEnv :=
  { repo := repoA
    manifestServiceErr := none
    blobsService := some { isScopped := true, blobs := [4, 9], enumErr := none }
    removeManifest := fun _ _ _ => .ok ()
    removeRepositoryBlob := fun _ => .ok () }

/-- GC environment bound to repoNest, scoped blob store holding the
digests 1, 2 and 3. -/
def envNested : GCEnv :=
  { repo := repoNest
    manifestServiceErr := none
    blobsService := some { isScopped := true, blobs := [1, 2, 3], enumErr := none }
    removeManifest := fun _ _ _ => .ok ()
    removeRepositoryBlob := fun _ => .ok () }

/-- GC environment whose mark phase fails on the tag lookup. -/
def envMarkErr : GCEnv :=
  { repo := repoErr
    manifestServiceErr := none
    blobsService := some { isScopped := true, blobs := [5], enumErr := none }
    removeManifest := fun _ _ _ => .ok ()
    removeRepositoryBlob := fun _ => .ok () }

/-- GC environment where removing repository blob 9 fails. -/
def envBlobFail : GCEnv :=
  { repo := repoA
    manifestServiceErr := none
    blobsService := some { isScopped := true, blobs := [4, 9], enumErr := none }
    removeManifest := fun _ _ _ => .ok ()
    removeRepositoryBlob := fun d => if d = 9 then .error "disk failure" else .ok () }

/-- GC environment where the sweep's removal of manifest 2 fails. -/
def envSweepFail : GCEnv :=
  { repo := repoU
    manifestServiceErr := none
    blobsService := some { isScopped := true, blobs := [1, 2], enumErr := none }
    removeManifest := fun _ d _ => if d = 2 then .error "locked" else .ok ()
    removeRepositoryBlob := fun _ => .ok () }

/-- GC environment whose blob enumeration fails after yielding its
digests. -/
def envBlobEnumErr : GCEnv :=
  { repo := repoA
    manifestServiceErr := none
    blobsService := some { isScopped := true, blobs := [4, 9], enumErr := some "io" }
    removeManifest := fun _ _ _ => .ok ()
    removeRepositoryBlob := fun _ => .ok () }

/-- GC environment in global (non-repository-scoped) blob storage mode:
the blobs enumerator reports it is not scoped. -/
def envGlobal : GCEnv :=
  { repo := repoA
    manifestServiceErr := none
    blobsService := some { isScopped := false, blobs := [4, 9], enumErr := none }
    removeManifest := fun _ _ _ => .ok ()
    removeRepositoryBlob := fun _ => .ok () }

end Housekeeping

namespace Storage

/-- A registry with repository-scoped blob storage enabled. -/
def regScoped : Registry :=
  { initialRegistry 0 with
    options := { (initialRegistry 0).options with repositoryBlobStoreEnabled := true } }

/-- A repository of the scoped registry. -/
def repoR1 : Repository := { registry := regScoped, name := "tenant-1" }

/-- A second, differently named repository of the scoped registry. -/
def repoR2 : Repository := { registry := regScoped, name := "tenant-2" }

/-- A repository of a registry in the default global blob storage mode. -/
def repoG : Repository := { registry := initialRegistry 0, name := "tenant-1" }

end Storage

namespace Housekeeping

/-- A successful markOne step is either the untagged branch, which only
appends a pending deletion, or the tagged branch, which only extends the
mark set with the digest and its references. -/
theorem markOne_ok_cases (n : String) (st : RepoState) (acc : MarkState)
    (d : Digest) (st' : MarkState)
    (h : markOne n st true acc d = .ok st') :
    (∃ ats, st.tagLookup d = .ok [] ∧ st.allTags = .ok ats ∧
      st' = { acc with
              manifestArr := acc.manifestArr ++ [{ name := n, digest := d, tags := ats }] }) ∨
    (∃ tags m, st.tagLookup d = .ok tags ∧ tags ≠ [] ∧ st.getManifest d = .ok m ∧
      st' = { manifestArr := acc.manifestArr,
              markSet := (acc.markSet ++ [d]) ++ m.references.map Descriptor.digest }) := by
  unfold markOne markManifestAndRefs at h
  split at h
  · split at h
    · exact absurd h (by simp)
    · rename_i tags htl
      split at h
      · rename_i hlen
        have htags : tags = [] := by
          rcases tags with _ | ⟨t, ts⟩
          · rfl
          · simp at hlen
        subst htags
        split at h
        · exact absurd h (by simp)
        · rename_i ats hat
          cases h
          exact Or.inl ⟨ats, htl, hat, rfl⟩
      · rename_i hlen
        split at h
        · exact absurd h (by simp)
        · rename_i m hg
          cases h
          refine Or.inr ⟨tags, m, htl, ?_, hg, rfl⟩
          intro hnil
          subst hnil
          simp at hlen
  · simp at *

/-- After a successful markOne step the old pending deletions and old
marks are still present. -/
theorem markOne_mono (n : String) (st : RepoState) (acc : MarkState)
    (d : Digest) (st' : MarkState)
    (h : markOne n st true acc d = .ok st') :
    (∀ m ∈ acc.manifestArr, m ∈ st'.manifestArr) ∧
    (∀ x ∈ acc.markSet, x ∈ st'.markSet) := by
  rcases markOne_ok_cases n st acc d st' h with ⟨ats, _, _, hst⟩ | ⟨tags, m, _, _, _, hst⟩ <;>
    subst hst <;>
    exact ⟨fun m hm => by simp [hm], fun x hx => by simp [hx]⟩

/-- After a successful mark fold the initial pending deletions and marks
are still present. -/
theorem markFold_mono (n : String) (st : RepoState) (acc : MarkState)
    (ds : List Digest) (st' : MarkState)
    (h : markFold n st acc ds = .ok st') :
    (∀ m ∈ acc.manifestArr, m ∈ st'.manifestArr) ∧
    (∀ x ∈ acc.markSet, x ∈ st'.markSet) := by
  induction ds generalizing acc with
  | nil =>
    unfold markFold at h
    cases h
    exact ⟨fun m hm => hm, fun x hx => hx⟩
  | cons d rest ih =>
    unfold markFold at h
    cases hstep : markOne n st true acc d with
    | error e => rw [hstep] at h; exact absurd h (by simp)
    | ok acc' =>
      rw [hstep] at h
      have h1 := markOne_mono n st acc d acc' hstep
      have h2 := ih acc' h
      exact ⟨fun m hm => h2.1 m (h1.1 m hm), fun x hx => h2.2 x (h1.2 x hx)⟩

/-- Provenance of the mark fold's outputs: every pending deletion either
was already present or names this repository, an enumerated untagged
digest, and the repository's full tag list; every mark either was already
present or is an enumerated digest or a reference of a fetched enumerated
manifest. -/
theorem markFold_provenance (n : String) (st : RepoState) (acc : MarkState)
    (ds : List Digest) (st' : MarkState)
    (h : markFold n st acc ds = .ok st') :
    (∀ m ∈ st'.manifestArr, m ∈ acc.manifestArr ∨
      ∃ d ∈ ds, ∃ ats, st.tagLookup d = .ok [] ∧ st.allTags = .ok ats ∧
        m = { name := n, digest := d, tags := ats }) ∧
    (∀ x ∈ st'.markSet, x ∈ acc.markSet ∨ x ∈ ds ∨
      ∃ d ∈ ds, ∃ mf, st.getManifest d = .ok mf ∧
        x ∈ mf.references.map Descriptor.digest) := by
  induction ds generalizing acc with
  | nil =>
    unfold markFold at h
    cases h
    exact ⟨fun m hm => Or.inl hm, fun x hx => Or.inl hx⟩
  | cons d rest ih =>
    unfold markFold at h
    cases hstep : markOne n st true acc d with
    | error e => rw [hstep] at h; exact absurd h (by simp)
    | ok acc' =>
      rw [hstep] at h
      have hrec := ih acc' h
      rcases markOne_ok_cases n st acc d acc' hstep with
        ⟨ats, hlk, hat, hst⟩ | ⟨tags, mf, hlk, hne, hg, hst⟩
      · constructor
        · intro m hm
          rcases hrec.1 m hm with hin | ⟨d', hd', ats', hlk', hat', hm'⟩
          · rw [hst] at hin
            simp only [List.mem_append, List.mem_singleton] at hin
            rcases hin with hin | hin
            · exact Or.inl hin
            · exact Or.inr ⟨d, by simp, ats, hlk, hat, hin⟩
          · exact Or.inr ⟨d', by simp [hd'], ats', hlk', hat', hm'⟩
        · intro x hx
          rcases hrec.2 x hx with hin | hin | ⟨d', hd', mf', hg', hx'⟩
          · rw [hst] at hin; exact Or.inl hin
          · exact Or.inr (Or.inl (by simp [hin]))
          · exact Or.inr (Or.inr ⟨d', by simp [hd'], mf', hg', hx'⟩)
      · constructor
        · intro m hm
          rcases hrec.1 m hm with hin | ⟨d', hd', ats', hlk', hat', hm'⟩
          · rw [hst] at hin; exact Or.inl hin
          · exact Or.inr ⟨d', by simp [hd'], ats', hlk', hat', hm'⟩
        · intro x hx
          rcases hrec.2 x hx with hin | hin | ⟨d', hd', mf', hg', hx'⟩
          · rw [hst] at hin
            simp only [List.mem_append, List.mem_singleton] at hin
            rcases hin with (hin | hin) | hin
            · exact Or.inl hin
            · exact Or.inr (Or.inl (by simp [hin]))
            · exact Or.inr (Or.inr ⟨d, by simp, mf, hg, hin⟩)
          · exact Or.inr (Or.inl (by simp [hin]))
          · exact Or.inr (Or.inr ⟨d', by simp [hd'], mf', hg', hx'⟩)

/-- Every enumerated digest whose tag lookup yields at least one tag ends
up in the final mark set, together with all references of its fetched
manifest. -/
theorem markFold_tagged_marked (n : String) (st : RepoState) (acc : MarkState)
    (ds : List Digest) (st' : MarkState)
    (h : markFold n st acc ds = .ok st') :
    ∀ d ∈ ds, ∀ tags, st.tagLookup d = .ok tags → tags ≠ [] →
      d ∈ st'.markSet ∧
      ∀ m, st.getManifest d = .ok m → ∀ r ∈ m.references, r.digest ∈ st'.markSet := by
  induction ds generalizing acc with
  | nil => intro d hd; exact absurd hd (by simp)
  | cons d0 rest ih =>
    intro d hd tags hlk hne
    unfold markFold at h
    cases hstep : markOne n st true acc d0 with
    | error e => rw [hstep] at h; exact absurd h (by simp)
    | ok acc' =>
      rw [hstep] at h
      rcases List.mem_cons.mp hd with hd0 | hdrest
      · subst hd0
        rcases markOne_ok_cases n st acc d acc' hstep with
          ⟨ats, hlk', _, _⟩ | ⟨tags', m', hlk', _, hg', hst⟩
        · rw [hlk] at hlk'
          cases hlk'
          exact absurd rfl hne
        · have hmono := (markFold_mono n st acc' rest st' h).2
          constructor
          · exact hmono d (by rw [hst]; simp)
          · intro m hg r hr
            rw [hg] at hg'
            cases hg'
            refine hmono r.digest ?_
            rw [hst]
            simp only [List.mem_append, List.mem_map]
            exact Or.inr ⟨r, hr, rfl⟩
      · exact ih acc' h d hdrest tags hlk hne

/-- Every manifest deletion the sweep performs was a pending deletion
computed by the mark phase. -/
theorem sweepManifests_sub (env : GCEnv) (arr : List ManifestDel) :
    ∀ m ∈ (sweepManifests env arr).1, m ∈ arr := by
  induction arr with
  | nil => intro m hm; exact absurd hm (by simp [sweepManifests])
  | cons obj rest ih =>
    intro m hm
    unfold sweepManifests at hm
    cases hrm : env.removeManifest obj.name obj.digest obj.tags with
    | error e => rw [hrm] at hm; exact absurd hm (by simp)
    | ok _ =>
      rw [hrm] at hm
      simp only [List.mem_cons] at hm ⊢
      rcases hm with hm | hm
      · exact Or.inl hm
      · exact Or.inr (ih m hm)

/-- When every pending removal succeeds the sweep deletes all of them, in
order, and reports success. -/
theorem sweepManifests_all_ok (env : GCEnv) (arr : List ManifestDel)
    (h : ∀ o ∈ arr, env.removeManifest o.name o.digest o.tags = .ok ()) :
    sweepManifests env arr = (arr, .ok ()) := by
  induction arr with
  | nil => rfl
  | cons obj rest ih =>
    unfold sweepManifests
    rw [h obj (by simp)]
    rw [ih (fun o ho => h o (by simp [ho]))]

/-- When the removals of a first segment succeed and the next removal
fails, the sweep deletes exactly that segment and stops with the failure,
leaving the rest untouched. -/
theorem sweepManifests_first_error (env : GCEnv) (p : List ManifestDel)
    (obj : ManifestDel) (rest : List ManifestDel) (e : String)
    (hp : ∀ o ∈ p, env.removeManifest o.name o.digest o.tags = .ok ())
    (hobj : env.removeManifest obj.name obj.digest obj.tags = .error e) :
    sweepManifests env (p ++ obj :: rest) =
      (p, .error ("failed to delete manifest " ++ toString obj.digest ++ ": " ++ e)) := by
  induction p with
  | nil =>
    rw [List.nil_append]
    simp only [sweepManifests, hobj]
  | cons o0 p' ih =>
    have h0 : env.removeManifest o0.name o0.digest o0.tags = .ok () := hp o0 (by simp)
    rw [List.cons_append]
    simp only [sweepManifests, h0]
    rw [ih (fun o ho => hp o (by simp [ho]))]

/-- Reduction of runGCCycle when the manifest service construction
fails. -/
theorem runGCCycle_serviceErr (env : GCEnv) (e : String)
    (hms : env.manifestServiceErr = some e) :
    runGCCycle env =
      { deletedManifests := [], deletedBlobs := [],
        result := .error ("failed to construct manifest service: " ++ e) } := by
  unfold runGCCycle
  rw [hms]

/-- Reduction of runGCCycle when the mark phase fails. -/
theorem runGCCycle_markErr (env : GCEnv) (e : String)
    (hms : env.manifestServiceErr = none)
    (h : markAllManifests env.repo = .error e) :
    runGCCycle env =
      { deletedManifests := [], deletedBlobs := [],
        result := .error ("failed to mark all manifests: " ++ e) } := by
  unfold runGCCycle
  rw [hms, h]

/-- Reduction of runGCCycle on a completed mark state. -/
theorem runGCCycle_ok (env : GCEnv) (st : MarkState)
    (hms : env.manifestServiceErr = none)
    (h : markAllManifests env.repo = .ok st) :
    runGCCycle env = gcAfterMark env st := by
  unfold runGCCycle
  rw [hms, h]

/-- Reduction of the sweep when a manifest removal fails. -/
theorem gcAfterMark_sweepErr (env : GCEnv) (st : MarkState)
    (dels : List ManifestDel) (e : String)
    (h : sweepManifests env st.manifestArr = (dels, .error e)) :
    gcAfterMark env st =
      { deletedManifests := dels, deletedBlobs := [], result := .error e } := by
  unfold gcAfterMark
  rw [h]

/-- Reduction of the sweep when all manifest removals succeed. -/
theorem gcAfterMark_sweepOk (env : GCEnv) (st : MarkState)
    (dels : List ManifestDel)
    (h : sweepManifests env st.manifestArr = (dels, .ok ())) :
    gcAfterMark env st = gcBlobSweep env st dels := by
  unfold gcAfterMark
  rw [h]

/-- Reduction of the blob section when there is no blobs enumerator. -/
theorem gcBlobSweep_noService (env : GCEnv) (st : MarkState)
    (dels : List ManifestDel) (h : env.blobsService = none) :
    gcBlobSweep env st dels =
      { deletedManifests := dels, deletedBlobs := [], result := .ok () } := by
  unfold gcBlobSweep
  rw [h]

/-- Reduction of the blob section when the enumerator is not scoped. -/
theorem gcBlobSweep_unscoped (env : GCEnv) (st : MarkState)
    (dels : List ManifestDel) (bs : BlobsService)
    (h : env.blobsService = some bs) (hs : bs.isScopped = false) :
    gcBlobSweep env st dels =
      { deletedManifests := dels, deletedBlobs := [], result := .ok () } := by
  unfold gcBlobSweep
  rw [h]
  dsimp only
  rw [hs]
  rfl

/-- Reduction of the blob section when the enumerator is scoped and its
enumeration fails after yielding the digests. -/
theorem gcBlobSweep_scoped_enumErr (env : GCEnv) (st : MarkState)
    (dels : List ManifestDel) (bs : BlobsService) (e : String)
    (h : env.blobsService = some bs) (hs : bs.isScopped = true)
    (he : bs.enumErr = some e) :
    gcBlobSweep env st dels =
      { deletedManifests := dels
        deletedBlobs := bs.blobs.filter
          (fun d => !(st.markSet.contains d) && exOk (env.removeRepositoryBlob d))
        result := .error ("failed to delete blobs " ++ e) } := by
  unfold gcBlobSweep
  rw [h]
  dsimp only
  rw [hs, he]
  rfl

/-- Reduction of the blob section when the enumerator is scoped and the
enumeration succeeds. -/
theorem gcBlobSweep_scoped_ok (env : GCEnv) (st : MarkState)
    (dels : List ManifestDel) (bs : BlobsService)
    (h : env.blobsService = some bs) (hs : bs.isScopped = true)
    (he : bs.enumErr = none) :
    gcBlobSweep env st dels =
      { deletedManifests := dels
        deletedBlobs := bs.blobs.filter
          (fun d => !(st.markSet.contains d) && exOk (env.removeRepositoryBlob d))
        result := .ok () } := by
  unfold gcBlobSweep
  rw [h]
  dsimp only
  rw [hs, he]
  rfl

/-- The blob section carries the manifest deletions through unchanged and
only ever deletes blobs outside the mark set. -/
theorem gcBlobSweep_deletions (env : GCEnv) (st : MarkState)
    (dels : List ManifestDel) :
    (gcBlobSweep env st dels).deletedManifests = dels ∧
    ∀ d ∈ (gcBlobSweep env st dels).deletedBlobs, st.markSet.contains d = false := by
  cases hbs : env.blobsService with
  | none =>
    rw [gcBlobSweep_noService env st dels hbs]
    exact ⟨rfl, by simp⟩
  | some bs =>
    cases hsc : bs.isScopped with
    | false =>
      rw [gcBlobSweep_unscoped env st dels bs hbs hsc]
      exact ⟨rfl, by simp⟩
    | true =>
      cases henum : bs.enumErr with
      | some e =>
        rw [gcBlobSweep_scoped_enumErr env st dels bs e hbs hsc henum]
        refine ⟨rfl, fun d hd => ?_⟩
        simp only [List.mem_filter, Bool.and_eq_true, Bool.not_eq_true'] at hd
        exact hd.2.1
      | none =>
        rw [gcBlobSweep_scoped_ok env st dels bs hbs hsc henum]
        refine ⟨rfl, fun d hd => ?_⟩
        simp only [List.mem_filter, Bool.and_eq_true, Bool.not_eq_true'] at hd
        exact hd.2.1

/-- When the mark phase completes, the cycle's manifest deletions are
exactly the manifest sweep's output and every deleted blob was outside
the completed mark set. -/
theorem runGCCycle_deletions (env : GCEnv) (st : MarkState)
    (hms : env.manifestServiceErr = none)
    (h : markAllManifests env.repo = .ok st) :
    (runGCCycle env).deletedManifests = (sweepManifests env st.manifestArr).1 ∧
    ∀ d ∈ (runGCCycle env).deletedBlobs, st.markSet.contains d = false := by
  rw [runGCCycle_ok env st hms h]
  rcases hsw : sweepManifests env st.manifestArr with ⟨dels, r⟩
  cases r with
  | error e =>
    rw [gcAfterMark_sweepErr env st dels e hsw]
    exact ⟨rfl, by simp⟩
  | ok u =>
    cases u
    rw [gcAfterMark_sweepOk env st dels hsw]
    exact gcBlobSweep_deletions env st dels

/-- Claim C4: nothing is deleted during the mark phase — whenever a GC
cycle deleted any manifest or blob, the mark phase had returned a fully
computed mark state first, every deleted manifest was one of its pending
deletions, and every deleted blob was outside its mark set. -/
theorem gc_no_deletion_before_mark (env : GCEnv)
    (h : (runGCCycle env).deletedManifests ≠ [] ∨ (runGCCycle env).deletedBlobs ≠ []) :
    ∃ st, markAllManifests env.repo = .ok st ∧
      (∀ m ∈ (runGCCycle env).deletedManifests, m ∈ st.manifestArr) ∧
      (∀ d ∈ (runGCCycle env).deletedBlobs, st.markSet.contains d = false) := by
  cases hms : env.manifestServiceErr with
  | some e =>
    have hrun : runGCCycle env =
        { deletedManifests := [], deletedBlobs := [],
          result := .error ("failed to construct manifest service: " ++ e) } := by
      unfold runGCCycle
      rw [hms]
    rw [hrun] at h
    simp at h
  | none =>
    cases hmk : markAllManifests env.repo with
    | error e =>
      have hrun : runGCCycle env =
          { deletedManifests := [], deletedBlobs := [],
            result := .error ("failed to mark all manifests: " ++ e) } := by
        unfold runGCCycle
        rw [hms, hmk]
      rw [hrun] at h
      simp at h
    | ok st =>
      have hchar := runGCCycle_deletions env st hms hmk
      refine ⟨st, rfl, fun m hm => ?_, hchar.2⟩
      rw [hchar.1] at hm
      exact sweepManifests_sub env st.manifestArr m hm

/-- Claim C4 witness: on envNested the cycle deleted a manifest, the mark
phase had completed, and every deletion is accounted for by its output. -/
theorem gc_no_deletion_before_mark_witness :
    ((runGCCycle envNested).deletedManifests ≠ [] ∨
      (runGCCycle envNested).deletedBlobs ≠ []) ∧
    ∃ st, markAllManifests envNested.repo = .ok st ∧
      (∀ m ∈ (runGCCycle envNested).deletedManifests, m ∈ st.manifestArr) ∧
      (∀ d ∈ (runGCCycle envNested).deletedBlobs, st.markSet.contains d = false) :=
  ⟨Or.inl (by decide), gc_no_deletion_before_mark envNested (Or.inl (by decide))⟩

/-- Claim C1: for every manifest digest enumerated by the mark phase, a
digest with at least one tag is added to the mark set together with every
descriptor of its fetched manifest's references, while a digest with zero
tags (remove-untagged being enabled) is recorded as a pending manifest
deletion carrying the repository name and the repository's full tag list,
and its processing adds neither the digest nor any of its references to
the mark set. -/
theorem mark_phase_per_digest :
    (∀ st fin, markAllManifests st = .ok fin →
      ∀ d ∈ st.manifests, ∀ tags, st.tagLookup d = .ok tags → tags ≠ [] →
        d ∈ fin.markSet ∧
        ∀ m, st.getManifest d = .ok m → ∀ r ∈ m.references, r.digest ∈ fin.markSet) ∧
    (∀ (n : String) (st : RepoState) (acc : MarkState) (d : Digest) ats,
      st.tagLookup d = .ok [] → st.allTags = .ok ats →
      markOne n st true acc d =
        .ok { manifestArr := acc.manifestArr ++ [{ name := n, digest := d, tags := ats }],
              markSet := acc.markSet }) := by
  constructor
  · intro st fin h d hd tags hlk hne
    unfold markAllManifests at h
    split at h
    · cases hmf : markFold st.name st { manifestArr := [], markSet := [] } st.manifests with
      | error e => rw [hmf] at h; exact absurd h (by simp)
      | ok acc =>
        rw [hmf] at h
        cases henum : st.manifestEnumErr with
        | some e => rw [henum] at h; exact absurd h (by simp)
        | none =>
          rw [henum] at h
          injection h with haf
          subst haf
          exact markFold_tagged_marked st.name st _ st.manifests _ hmf d hd tags hlk hne
    · exact absurd h (by simp)
  · intro n st acc d ats hlk hat
    unfold markOne
    rw [hlk, hat]
    rfl

/-- Claim C1 witness: on repoNest, the tagged manifest 1 and its
reference 2 are marked, and the untagged manifest 2's processing records
a pending deletion with the full tag list while leaving the mark set
unchanged. -/
theorem mark_phase_per_digest_witness :
    ((1 : Digest) ∈ (MarkState.mk [ManifestDel.mk "repo-n" 2 ["latest"]] [1, 2]).markSet ∧
      ∀ m, repoNest.getManifest 1 = .ok m → ∀ r ∈ m.references,
        r.digest ∈ (MarkState.mk [ManifestDel.mk "repo-n" 2 ["latest"]] [1, 2]).markSet) ∧
    markOne "repo-n" repoNest true (MarkState.mk [] [1, 2]) 2 =
      .ok (MarkState.mk [ManifestDel.mk "repo-n" 2 ["latest"]] [1, 2]) :=
  ⟨mark_phase_per_digest.1 repoNest
      (MarkState.mk [ManifestDel.mk "repo-n" 2 ["latest"]] [1, 2])
      rfl 1 (by decide) ["latest"] rfl (by decide),
   mark_phase_per_digest.2 "repo-n" repoNest (MarkState.mk [] [1, 2]) 2
      ["latest"] rfl rfl⟩

/-- Claim C2 (code bug): on repoNest the tagged manifest 1 is a manifest
list referencing manifest 2, which references blob 3; although digest 2
is in the mark set, the GC cycle deletes manifest 2 and blob 3 — both
transitively referenced by a tagged manifest. -/
theorem gc_deletes_referenced_manifest :
    repoNest.tagLookup 1 = .ok ["latest"] ∧
    repoNest.getManifest 1 = .ok { references := [{ digest := 2 }] } ∧
    repoNest.getManifest 2 = .ok { references := [{ digest := 3 }] } ∧
    markAllManifests repoNest =
      .ok { manifestArr := [{ name := "repo-n", digest := 2, tags := ["latest"] }],
            markSet := [1, 2] } ∧
    (runGCCycle envNested).deletedManifests =
      [{ name := "repo-n", digest := 2, tags := ["latest"] }] ∧
    (runGCCycle envNested).deletedBlobs = [3] ∧
    (runGCCycle envNested).result = .ok () :=
  ⟨rfl, rfl, rfl, rfl, rfl, rfl, rfl⟩

/-- Claim C3: when the mark phase fails, the GC run aborts with an error
before any deletion is performed, and a manifest whose tag lookup fails
is never treated as untagged — its enumeration callback aborts with the
lookup error instead of recording a pending deletion. -/
theorem gc_mark_error_fail_closed :
    (∀ env e, markAllManifests env.repo = .error e →
      (runGCCycle env).deletedManifests = [] ∧ (runGCCycle env).deletedBlobs = [] ∧
      ∃ msg, (runGCCycle env).result = .error msg) ∧
    (∀ (st : RepoState) (acc : MarkState) (d : Digest) e,
      st.tagLookup d = .error e →
      markOne st.name st true acc d =
        .error ("failed to retrieve tags for digest " ++ toString d ++ ": " ++ e)) := by
  constructor
  · intro env e h
    cases hms : env.manifestServiceErr with
    | some e2 =>
      have hrun : runGCCycle env =
          { deletedManifests := [], deletedBlobs := [],
            result := .error ("failed to construct manifest service: " ++ e2) } := by
        unfold runGCCycle
        rw [hms]
      rw [hrun]
      exact ⟨rfl, rfl, ⟨_, rfl⟩⟩
    | none =>
      have hrun : runGCCycle env =
          { deletedManifests := [], deletedBlobs := [],
            result := .error ("failed to mark all manifests: " ++ e) } := by
        unfold runGCCycle
        rw [hms, h]
      rw [hrun]
      exact ⟨rfl, rfl, ⟨_, rfl⟩⟩
  · intro st acc d e hlk
    unfold markOne
    rw [hlk]
    rfl

/-- Claim C3 witness: on envMarkErr the tag lookup fails, the whole run
reports an error, and nothing is deleted. -/
theorem gc_mark_error_fail_closed_witness :
    markAllManifests envMarkErr.repo =
      .error "failed to retrieve tags for digest 5: boom" ∧
    ((runGCCycle envMarkErr).deletedManifests = [] ∧
      (runGCCycle envMarkErr).deletedBlobs = [] ∧
      ∃ msg, (runGCCycle envMarkErr).result = .error msg) ∧
    repoErr.tagLookup 5 = .error "boom" ∧
    markOne repoErr.name repoErr true { manifestArr := [], markSet := [] } 5 =
      .error ("failed to retrieve tags for digest " ++ toString (5 : Digest) ++ ": " ++ "boom") :=
  ⟨rfl,
   gc_mark_error_fail_closed.1 envMarkErr _ rfl,
   rfl,
   gc_mark_error_fail_closed.2 repoErr { manifestArr := [], markSet := [] } 5 "boom" rfl⟩

/-- Claim C5 counterexample: on envBlobFail the removal of repository
blob 9 — enumerated and absent from the mark set — fails, yet the GC run
reports success: the blob-removal failure is swallowed, not propagated as
the run's result. -/
theorem gc_blob_removal_error_swallowed :
    envBlobFail.removeRepositoryBlob 9 = .error "disk failure" ∧
    envBlobFail.blobsService =
      some { isScopped := true, blobs := [4, 9], enumErr := none } ∧
    markAllManifests envBlobFail.repo = .ok (MarkState.mk [] [1, 4]) ∧
    (9 : Digest) ∉ ([1, 4] : List Digest) ∧
    (runGCCycle envBlobFail).deletedBlobs = [] ∧
    (runGCCycle envBlobFail).result = .ok () :=
  ⟨rfl, rfl, rfl, by decide, rfl, rfl⟩

/-- Claim C5 (amended): a single manifest-deletion failure aborts further
sweeping, keeping prior deletions and propagating the failure as the
run's result; an error of the sweep's blob enumeration itself is also
propagated; but a failure to remove an individual repository blob is
ignored and leaves the run's result a success. -/
theorem gc_sweep_error_policy :
    (∀ env st p obj rest e,
      env.manifestServiceErr = none →
      markAllManifests env.repo = .ok st →
      st.manifestArr = p ++ obj :: rest →
      (∀ o ∈ p, env.removeManifest o.name o.digest o.tags = .ok ()) →
      env.removeManifest obj.name obj.digest obj.tags = .error e →
      (runGCCycle env).deletedManifests = p ∧
      (runGCCycle env).deletedBlobs = [] ∧
      (runGCCycle env).result =
        .error ("failed to delete manifest " ++ toString obj.digest ++ ": " ++ e)) ∧
    (∀ env st bs e,
      env.manifestServiceErr = none →
      markAllManifests env.repo = .ok st →
      (∀ o ∈ st.manifestArr, env.removeManifest o.name o.digest o.tags = .ok ()) →
      env.blobsService = some bs → bs.isScopped = true → bs.enumErr = some e →
      (runGCCycle env).result = .error ("failed to delete blobs " ++ e)) ∧
    (∀ env st bs,
      env.manifestServiceErr = none →
      markAllManifests env.repo = .ok st →
      (∀ o ∈ st.manifestArr, env.removeManifest o.name o.digest o.tags = .ok ()) →
      env.blobsService = some bs → bs.isScopped = true → bs.enumErr = none →
      (runGCCycle env).result = .ok ()) := by
  refine ⟨?_, ?_, ?_⟩
  · intro env st p obj rest e hms hmk harr hp hobj
    have hsw : sweepManifests env st.manifestArr =
        (p, .error ("failed to delete manifest " ++ toString obj.digest ++ ": " ++ e)) := by
      rw [harr]
      exact sweepManifests_first_error env p obj rest e hp hobj
    rw [runGCCycle_ok env st hms hmk, gcAfterMark_sweepErr env st p _ hsw]
    exact ⟨rfl, rfl, rfl⟩
  · intro env st bs e hms hmk hall hbs hsc henum
    have hsw : sweepManifests env st.manifestArr = (st.manifestArr, .ok ()) :=
      sweepManifests_all_ok env st.manifestArr hall
    rw [runGCCycle_ok env st hms hmk, gcAfterMark_sweepOk env st st.manifestArr hsw,
      gcBlobSweep_scoped_enumErr env st st.manifestArr bs e hbs hsc henum]
  · intro env st bs hms hmk hall hbs hsc henum
    have hsw : sweepManifests env st.manifestArr = (st.manifestArr, .ok ()) :=
      sweepManifests_all_ok env st.manifestArr hall
    rw [runGCCycle_ok env st hms hmk, gcAfterMark_sweepOk env st st.manifestArr hsw,
      gcBlobSweep_scoped_ok env st st.manifestArr bs hbs hsc henum]

/-- Claim C5 witness: a failing removal of manifest 2 keeps the earlier
deletion of manifest 1 and aborts with its error; a blob enumeration
error is the run's result; a failing individual blob removal leaves the
run successful. -/
theorem gc_sweep_error_policy_witness :
    ((runGCCycle envSweepFail).deletedManifests =
        [ManifestDel.mk "repo-u" 1 ["old"]] ∧
      (runGCCycle envSweepFail).deletedBlobs = [] ∧
      (runGCCycle envSweepFail).result =
        .error ("failed to delete manifest " ++ toString (2 : Digest) ++ ": " ++ "locked")) ∧
    (runGCCycle envBlobEnumErr).result = .error ("failed to delete blobs " ++ "io") ∧
    (runGCCycle envBlobFail).result = .ok () :=
  ⟨gc_sweep_error_policy.1 envSweepFail
      (MarkState.mk [ManifestDel.mk "repo-u" 1 ["old"], ManifestDel.mk "repo-u" 2 ["old"]] [])
      [ManifestDel.mk "repo-u" 1 ["old"]] (ManifestDel.mk "repo-u" 2 ["old"]) [] "locked"
      rfl rfl rfl
      (by intro o ho; rw [List.mem_singleton] at ho; subst ho; rfl)
      rfl,
   gc_sweep_error_policy.2.1 envBlobEnumErr (MarkState.mk [] [1, 4])
      { isScopped := true, blobs := [4, 9], enumErr := some "io" } "io"
      rfl rfl (fun o ho => absurd ho (List.not_mem_nil o)) rfl rfl rfl,
   gc_sweep_error_policy.2.2 envBlobFail (MarkState.mk [] [1, 4])
      { isScopped := true, blobs := [4, 9], enumErr := none }
      rfl rfl (fun o ho => absurd ho (List.not_mem_nil o)) rfl rfl rfl⟩

/-- Claim C6 counterexample: on envGlobal the blob store is global (the
enumerator is not repository-scoped); blob 9 is enumerable and absent
from the mark set, yet the sweep deletes no blob at all and the run
succeeds. -/
theorem gc_global_store_not_swept :
    envGlobal.blobsService =
      some { isScopped := false, blobs := [4, 9], enumErr := none } ∧
    markAllManifests envGlobal.repo = .ok (MarkState.mk [] [1, 4]) ∧
    (9 : Digest) ∉ ([1, 4] : List Digest) ∧
    (runGCCycle envGlobal).deletedBlobs = [] ∧
    (runGCCycle envGlobal).result = .ok () :=
  ⟨rfl, rfl, by decide, rfl, rfl⟩

/-- Claim C6 (amended): after the manifest deletions the sweep deletes
blobs only when the repository blobs enumerator exists and is scoped, in
which case it deletes exactly the enumerated digests absent from the mark
set (removals succeeding); when the enumerator is missing or not scoped —
the global-store mode — no blob is deleted. -/
theorem gc_blob_sweep_scoped_only :
    (∀ env st bs,
      env.manifestServiceErr = none →
      markAllManifests env.repo = .ok st →
      (∀ o ∈ st.manifestArr, env.removeManifest o.name o.digest o.tags = .ok ()) →
      env.blobsService = some bs → bs.isScopped = true →
      (∀ d, env.removeRepositoryBlob d = .ok ()) →
      (runGCCycle env).deletedBlobs =
        bs.blobs.filter (fun d => !(st.markSet.contains d))) ∧
    (∀ env,
      (env.blobsService = none ∨
        ∃ bs, env.blobsService = some bs ∧ bs.isScopped = false) →
      (runGCCycle env).deletedBlobs = []) := by
  constructor
  · intro env st bs hms hmk hall hbs hsc hrb
    have hsw : sweepManifests env st.manifestArr = (st.manifestArr, .ok ()) :=
      sweepManifests_all_ok env st.manifestArr hall
    have hfil : bs.blobs.filter
        (fun d => !(st.markSet.contains d) && exOk (env.removeRepositoryBlob d)) =
        bs.blobs.filter (fun d => !(st.markSet.contains d)) := by
      apply List.filter_congr
      intro d _
      rw [hrb d]
      simp [exOk]
    cases henum : bs.enumErr with
    | some e =>
      rw [runGCCycle_ok env st hms hmk, gcAfterMark_sweepOk env st st.manifestArr hsw,
        gcBlobSweep_scoped_enumErr env st st.manifestArr bs e hbs hsc henum]
      exact hfil
    | none =>
      rw [runGCCycle_ok env st hms hmk, gcAfterMark_sweepOk env st st.manifestArr hsw,
        gcBlobSweep_scoped_ok env st st.manifestArr bs hbs hsc henum]
      exact hfil
  · intro env hscope
    cases hms : env.manifestServiceErr with
    | some e => rw [runGCCycle_serviceErr env e hms]
    | none =>
      cases hmk : markAllManifests env.repo with
      | error e => rw [runGCCycle_markErr env e hms hmk]
      | ok st =>
        rw [runGCCycle_ok env st hms hmk]
        rcases hsw : sweepManifests env st.manifestArr with ⟨dels, r⟩
        cases r with
        | error e => rw [gcAfterMark_sweepErr env st dels e hsw]
        | ok u =>
          cases u
          rw [gcAfterMark_sweepOk env st dels hsw]
          rcases hscope with hnone | ⟨bs, hbs, hsc⟩
          · rw [gcBlobSweep_noService env st dels hnone]
          · rw [gcBlobSweep_unscoped env st dels bs hbs hsc]

/-- Claim C6 witness: on envA (scoped) the sweep deletes exactly the
unmarked enumerated blob 9; on envGlobal (not scoped) it deletes
nothing. -/
theorem gc_blob_sweep_scoped_only_witness :
    (runGCCycle envA).deletedBlobs =
      [4, 9].filter (fun d => !((MarkState.mk [] [1, 4]).markSet.contains d)) ∧
    (runGCCycle envGlobal).deletedBlobs = [] :=
  ⟨gc_blob_sweep_scoped_only.1 envA (MarkState.mk [] [1, 4])
      { isScopped := true, blobs := [4, 9], enumErr := none }
      rfl rfl (fun o ho => absurd ho (List.not_mem_nil o)) rfl rfl (fun _ => rfl),
   gc_blob_sweep_scoped_only.2 envGlobal
      (Or.inr ⟨{ isScopped := false, blobs := [4, 9], enumErr := none }, rfl, rfl⟩)⟩

/-- Claim C7 counterexample: with a namespace of two repositories, the GC
pass bound to repoA completes successfully while repoB's sole manifest 7
— untagged, hence necessarily recorded as a pending deletion had it been
enumerated — is neither marked nor scheduled nor deleted: the mark phase
enumerated only the bound repository's manifests. -/
theorem gc_single_repository_only :
    (7 : Digest) ∈ repoB.manifests ∧
    repoB.tagLookup 7 = .ok [] ∧
    markAllManifests repoA = .ok (MarkState.mk [] [1, 4]) ∧
    (7 : Digest) ∉ ([1, 4] : List Digest) ∧
    (runGCCycle envA).deletedManifests = [] ∧
    (runGCCycle envA).result = .ok () :=
  ⟨by decide, rfl, rfl, by decide, rfl, rfl⟩

/-- Claim C7 (amended): a single GC pass's mark phase processes only the
manifests of the repository the handler is bound to: every pending
deletion names that repository and one of its enumerated manifest
digests, and every marked digest is one of its enumerated manifests or a
reference of one of their fetched manifests. -/
theorem mark_phase_bound_repo_only (st : RepoState) (fin : MarkState)
    (h : markAllManifests st = .ok fin) :
    (∀ m ∈ fin.manifestArr, m.name = st.name ∧ m.digest ∈ st.manifests) ∧
    (∀ x ∈ fin.markSet, x ∈ st.manifests ∨
      ∃ d ∈ st.manifests, ∃ mf, st.getManifest d = .ok mf ∧
        x ∈ mf.references.map Descriptor.digest) := by
  unfold markAllManifests at h
  split at h
  · cases hmf : markFold st.name st { manifestArr := [], markSet := [] } st.manifests with
    | error e => rw [hmf] at h; exact absurd h (by simp)
    | ok acc =>
      rw [hmf] at h
      cases henum : st.manifestEnumErr with
      | some e => rw [henum] at h; exact absurd h (by simp)
      | none =>
        rw [henum] at h
        injection h with haf
        subst haf
        have hprov := markFold_provenance st.name st
          { manifestArr := [], markSet := [] } st.manifests _ hmf
        constructor
        · intro m hm
          rcases hprov.1 m hm with hin | ⟨d, hd, ats, _, _, hm'⟩
          · exact absurd hin (by simp)
          · subst hm'
            exact ⟨rfl, hd⟩
        · intro x hx
          rcases hprov.2 x hx with hin | hin | ⟨d, hd, mf, hg, hx'⟩
          · exact absurd hin (by simp)
          · exact Or.inl hin
          · exact Or.inr ⟨d, hd, mf, hg, hx'⟩
  · exact absurd h (by simp)

/-- Claim C7 witness: on repoNest the completed mark state's pending
deletion names repoNest and its enumerated manifest 2, and every marked
digest stems from repoNest's own manifests. -/
theorem mark_phase_bound_repo_only_witness :
    (∀ m ∈ (MarkState.mk [ManifestDel.mk "repo-n" 2 ["latest"]] [1, 2]).manifestArr,
      m.name = repoNest.name ∧ m.digest ∈ repoNest.manifests) ∧
    (∀ x ∈ (MarkState.mk [ManifestDel.mk "repo-n" 2 ["latest"]] [1, 2]).markSet,
      x ∈ repoNest.manifests ∨
      ∃ d ∈ repoNest.manifests, ∃ mf, repoNest.getManifest d = .ok mf ∧
        x ∈ mf.references.map Descriptor.digest) :=
  mark_phase_bound_repo_only repoNest
    (MarkState.mk [ManifestDel.mk "repo-n" 2 ["latest"]] [1, 2]) rfl

/-- Claim C8: the housekeeping dispatcher registers the maintenance
trigger exactly when the registry is not read-only, and the trigger runs
one GC cycle synchronously, answering success with status 200, an empty
body and Content-Length 0, and any failure with status 500 and the
underlying error text as body. -/
theorem housekeeping_trigger (ro : Bool) (env : GCEnv) :
    ("DELETE" ∈ housekeepingDispatcher ro ↔ ro = false) ∧
    ((runGCCycle env).result = .ok () →
      Recycle env =
        { status := 200, headers := [("Content-Length", "0")], body := "" }) ∧
    (∀ e, (runGCCycle env).result = .error e →
      Recycle env = { status := 500, headers := [], body := e }) := by
  refine ⟨?_, ?_, ?_⟩
  · cases ro <;> simp [housekeepingDispatcher]
  · intro h
    unfold Recycle
    rw [h]
  · intro e h
    unfold Recycle
    rw [h]

/-- Claim C8 witness: with the registry writable the DELETE trigger is
registered; on envA the trigger answers 200 with an empty body, on
envMarkErr it answers 500 carrying the error text. -/
theorem housekeeping_trigger_witness :
    ("DELETE" ∈ housekeepingDispatcher false ↔ false = false) ∧
    Recycle envA =
      { status := 200, headers := [("Content-Length", "0")], body := "" } ∧
    Recycle envMarkErr =
      { status := 500, headers := []
        body := "failed to mark all manifests: failed to retrieve tags for digest 5: boom" } :=
  ⟨(housekeeping_trigger false envA).1,
   (housekeeping_trigger false envA).2.1 rfl,
   (housekeeping_trigger false envMarkErr).2.2
     "failed to mark all manifests: failed to retrieve tags for digest 5: boom" rfl⟩

end Housekeeping

namespace Storage

/-- Applying a concatenation of option lists equals applying the second
part to the result of the first, when the first part succeeds. -/
theorem applyOptions_append (p : List RegistryOption) (reg reg' : Registry)
    (rest : List RegistryOption)
    (h : applyOptions reg p = .ok reg') :
    applyOptions reg (p ++ rest) = applyOptions reg' rest := by
  induction p generalizing reg with
  | nil =>
    simp only [applyOptions] at h
    injection h with h'
    subst h'
    rw [List.nil_append]
  | cons o p' ih =>
    rw [List.cons_append]
    cases ho : o reg with
    | error e =>
      simp only [applyOptions, ho] at h
      exact absurd h (by simp)
    | ok reg1 =>
      simp only [applyOptions, ho] at h ⊢
      exact ih reg1 h

/-- Claim C9: NewRegistry with no options yields the registry with the
documented defaults — global blob storage enabled, repository-scoped
storage disabled, redirect disabled, delete disabled, legacy schema1
disabled, resumable digests enabled; each supplied option is applied in
order, and an option that errors at any position — after the earlier
options were applied — makes NewRegistry return that error and no
registry. -/
theorem newRegistry_defaults_and_options :
    (∀ driver : Driver,
      NewRegistry driver [] = .ok (initialRegistry driver) ∧
      (initialRegistry driver).options.globalBlobStoreEnabled = true ∧
      (initialRegistry driver).options.repositoryBlobStoreEnabled = false ∧
      (initialRegistry driver).options.redirect = false ∧
      (initialRegistry driver).deleteEnabled = false ∧
      (initialRegistry driver).schema1Enabled = false ∧
      (initialRegistry driver).resumableDigestEnabled = true) ∧
    (∀ (driver : Driver) (p : List RegistryOption) (o : RegistryOption)
        (rest : List RegistryOption) (e : String) (reg' : Registry),
      applyOptions (initialRegistry driver) p = .ok reg' →
      o reg' = .error e →
      NewRegistry driver (p ++ o :: rest) = .error e) ∧
    (∀ (reg reg' : Registry) (o : RegistryOption) (rest : List RegistryOption),
      o reg = .ok reg' →
      applyOptions reg (o :: rest) = applyOptions reg' rest) := by
  refine ⟨fun driver => ⟨rfl, rfl, rfl, rfl, rfl, rfl, rfl⟩, ?_, ?_⟩
  · intro driver p o rest e reg' hp ho
    unfold NewRegistry
    rw [applyOptions_append p (initialRegistry driver) reg' (o :: rest) hp]
    simp only [applyOptions, ho]
  · intro reg reg' o rest h
    simp only [applyOptions, h]

/-- Claim C9 witness: NewRegistry applied to no options, to EnableDelete
followed by a failing option — the error of the second option is
returned after the first was applied — and to EnableDelete followed by
nothing. -/
theorem newRegistry_defaults_and_options_witness :
    NewRegistry 0 [] = .ok (initialRegistry 0) ∧
    NewRegistry 0 [EnableDelete, fun _ => .error "bad option"] = .error "bad option" ∧
    applyOptions (initialRegistry 0) [EnableDelete] =
      applyOptions { initialRegistry 0 with deleteEnabled := true } [] :=
  ⟨(newRegistry_defaults_and_options.1 0).1,
   newRegistry_defaults_and_options.2.1 0 [EnableDelete] (fun _ => .error "bad option")
     [] "bad option" { initialRegistry 0 with deleteEnabled := true } rfl rfl,
   newRegistry_defaults_and_options.2.2 (initialRegistry 0)
     { initialRegistry 0 with deleteEnabled := true } EnableDelete [] rfl⟩

/-- Claim C10: with repository-scoped blob storage disabled, a
repository's Tags, Manifests and Blobs services all operate on the single
shared global blob store, statter and blob server of the registry; with
it enabled, the constructed store, statter and server are scoped exactly
to the repository's name, so repositories with different names never
share a scoped store. -/
theorem repository_store_scoping :
    (∀ repo : Repository, repo.registry.options.repositoryBlobStoreEnabled = false →
      scopedBlobStore repo = repo.registry.globalBlobStore ∧
      scopedBlobStatter repo = repo.registry.globalStatter ∧
      scopedBlobServer repo = repo.registry.globalBlobServer ∧
      (Tags repo).blobStore = repo.registry.globalBlobStore ∧
      (Manifests repo).linkedStore.blobStore = repo.registry.globalBlobStore ∧
      (Blobs repo).blobStore = repo.registry.globalBlobStore ∧
      (Blobs repo).blobServer = repo.registry.globalBlobServer) ∧
    (∀ repo : Repository, repo.registry.options.repositoryBlobStoreEnabled = true →
      (scopedBlobStore repo).repositoryScope = repo.name ∧
      (scopedBlobStatter repo).repositoryScope = repo.name ∧
      (scopedBlobStore repo).statter.repositoryScope = repo.name ∧
      (scopedBlobServer repo).pathScope = repo.name ∧
      (Tags repo).blobStore.repositoryScope = repo.name ∧
      (Manifests repo).linkedStore.blobStore.repositoryScope = repo.name ∧
      (Blobs repo).blobStore.repositoryScope = repo.name) ∧
    (∀ r1 r2 : Repository,
      r1.registry.options.repositoryBlobStoreEnabled = true →
      r2.registry.options.repositoryBlobStoreEnabled = true →
      r1.name ≠ r2.name →
      scopedBlobStore r1 ≠ scopedBlobStore r2 ∧
      scopedBlobStatter r1 ≠ scopedBlobStatter r2 ∧
      scopedBlobServer r1 ≠ scopedBlobServer r2) := by
  have hstore : ∀ repo : Repository,
      repo.registry.options.repositoryBlobStoreEnabled = true →
      (scopedBlobStore repo).repositoryScope = repo.name := by
    intro repo h
    unfold scopedBlobStore
    rw [h]
    rfl
  have hstat : ∀ repo : Repository,
      repo.registry.options.repositoryBlobStoreEnabled = true →
      (scopedBlobStatter repo).repositoryScope = repo.name := by
    intro repo h
    unfold scopedBlobStatter
    rw [h]
    rfl
  have hserv : ∀ repo : Repository,
      repo.registry.options.repositoryBlobStoreEnabled = true →
      (scopedBlobServer repo).pathScope = repo.name := by
    intro repo h
    unfold scopedBlobServer
    rw [h]
    exact hstore repo h
  refine ⟨?_, ?_, ?_⟩
  · intro repo h
    refine ⟨?_, ?_, ?_, ?_, ?_, ?_, ?_⟩ <;>
      simp [scopedBlobStore, scopedBlobStatter, scopedBlobServer, Tags, Manifests, Blobs, h]
  · intro repo h
    refine ⟨hstore repo h, hstat repo h, ?_, hserv repo h, ?_, ?_, ?_⟩
    · unfold scopedBlobStore
      rw [h]
      exact hstat repo h
    · exact hstore repo h
    · exact hstore repo h
    · exact hstore repo h
  · intro r1 r2 h1 h2 hne
    refine ⟨?_, ?_, ?_⟩
    · intro heq
      apply hne
      rw [← hstore r1 h1, ← hstore r2 h2, heq]
    · intro heq
      apply hne
      rw [← hstat r1 h1, ← hstat r2 h2, heq]
    · intro heq
      apply hne
      rw [← hserv r1 h1, ← hserv r2 h2, heq]

/-- Claim C10 witness: repoG (global mode) uses the registry's shared
global stores; repoR1 and repoR2 (scoped mode) get stores scoped to their
own names, and their stores differ. -/
theorem repository_store_scoping_witness :
    scopedBlobStore repoG = repoG.registry.globalBlobStore ∧
    (scopedBlobStore repoR1).repositoryScope = repoR1.name ∧
    scopedBlobStore repoR1 ≠ scopedBlobStore repoR2 :=
  ⟨(repository_store_scoping.1 repoG rfl).1,
   (repository_store_scoping.2.1 repoR1 rfl).1,
   (repository_store_scoping.2.2 repoR1 repoR2 rfl rfl (by decide)).1⟩

end Storage
